import Mathlib

set_option maxRecDepth 10000
set_option exponentiation.threshold 2000

/-!
Verification of the CleanMyCSV cleaning and quality-assessment engine
(`app/cleaner.py`, class `CSVCleaner`) against its specification.

The engine is shallowly embedded:
* a pandas `DataFrame` becomes `Table` — named columns with per-column dtypes
  and row-major cells;
* a cell is text, a numeric value (exact rational standing for the parsed
  decimal), or the explicit missing marker (`NaN`);
* the two external-service calls (column classification and instruction-code
  generation) and the effect of `exec` on generated code are threaded through
  an explicit environment `Env` of `Except`-valued functions, so every
  try/except of the source is an explicit pattern match here;
* Python floats are modelled exactly: every double is the rational it denotes,
  `float(...)` parsing and the product `len(df) * 0.7` go through an explicit
  IEEE-754 binary64 rounding function (`fl64`, round to nearest, ties to
  even), and `0.7` means the double nearest 0.7 where the source computes
  with it.  The sample-bounded thresholds `len(sample) * 0.8` (sample ≤ 20)
  and `len(sample) * 0.7` (sample ≤ 10) are kept as exact rationals: for an
  integer count `c` and those `n`, `c > fl64(fl64 n * fl64 0.8)` and
  `c > n * 4/5` coincide (the double product differs from the exact one by
  under `2⁻⁴⁵` while the nearest integer boundary is `1/5` away, and at the
  exact-integer points `n ∈ {5,10,15,20}` the tie rounds back to the
  integer), and likewise for `0.7` with `n ≤ 10`.
-/

/- Batteries marks the `Rat` arithmetic operations `@[irreducible]`, which
blocks elaboration-time evaluation of the (perfectly computable) engine
definitions; restore the default transparency so `decide` can evaluate them. -/
attribute [local semireducible] Rat.mul Rat.add Rat.sub Rat.inv Rat.ofScientific

namespace CleanMyCSV

/-- A single table cell: a text value, a finite numeric value, a float
infinity (the value Python's `float("inf")` / `float("-inf")` produces —
a non-missing float), or the missing marker (pandas `NaN`).  Missing is
distinct from the empty string. -/
inductive Cell where
  | text (s : String)
  | num (q : Rat)
  | inf (neg : Bool)
  | missing
deriving DecidableEq

/-- Column storage dtype, as far as the engine inspects it: the source only
ever asks whether a column's dtype is `object` (text-like); numeric and
datetime columns are skipped by every dtype guard. -/
inductive DType where
  | object
  | numeric
  | datetime
deriving DecidableEq

/-- A pandas DataFrame: ordered column names, their dtypes, and row-major
cells.  Well-formedness (`Table.WF`) records the pandas invariant that every
row has exactly one cell per column. -/
structure Table where
  colNames : List String
  dtypes : List DType
  rows : List (List Cell)
deriving DecidableEq

def Table.rowCount (t : Table) : Nat := t.rows.length

def Table.colCount (t : Table) : Nat := t.colNames.length

/-- The DataFrame shape invariant: one dtype per column and one cell per
column in every row. -/
def Table.WF (t : Table) : Prop :=
  t.dtypes.length = t.colNames.length ∧ ∀ r ∈ t.rows, r.length = t.colNames.length

instance (t : Table) : Decidable t.WF := by
  unfold Table.WF; infer_instance

def Cell.isMissing : Cell → Bool
  | .missing => true
  | _ => false

def Cell.isText : Cell → Bool
  | .text _ => true
  | _ => false

def Cell.isNum : Cell → Bool
  | .num _ => true
  | _ => false

/-! ### String helpers (Python `str.lower`, `str.strip`, `str(x)`) -/

/-- ASCII lower-casing of one character (Python `str.lower` restricted to the
ASCII range the engine's prompts and labels use). -/
def lcChar (c : Char) : Char :=
  if 'A' ≤ c ∧ c ≤ 'Z' then Char.ofNat (c.toNat + 32) else c

/-- Python `s.lower()`. -/
def lcStr (s : String) : String := (s.toList.map lcChar).asString

/-- Python whitespace for `str.strip()`. -/
def wsChar (c : Char) : Bool := c = ' ' ∨ c = '\t' ∨ c = '\n' ∨ c = '\r'

/-- Python `s.strip()`. -/
def stripStr (s : String) : String :=
  ((s.toList.dropWhile wsChar).reverse.dropWhile wsChar).reverse.asString

/-- Python `str(value)` on a cell, as used by `astype(str)` and by the
per-value cleaners: a string is itself, `NaN` renders as `"nan"`, and a
numeric value renders via its standard representation (only its digit
content and length are ever inspected). -/
def cellStr : Cell → String
  | .text s => s
  | .num q => toString q
  | .inf neg => if neg then "-inf" else "inf"
  | .missing => "nan"

/-! ### Python `float()` / `pd.to_numeric` decimal parsing -/

/-- Numeric value of a digit run (most significant first). -/
def digVal (cs : List Char) : Nat :=
  cs.foldl (fun a c => 10 * a + (c.toNat - 48)) 0

/-- An integer power of two as a rational, computed through `Nat` powers so
that large exponents evaluate fast. -/
def pow2 (e : Int) : Rat :=
  if 0 ≤ e then ((2 ^ e.toNat : Nat) : Rat) else ((2 ^ (-e).toNat : Nat) : Rat)⁻¹

/-- An integer power of ten as a rational, likewise through `Nat` powers. -/
def pow10 (e : Int) : Rat :=
  if 0 ≤ e then ((10 ^ e.toNat : Nat) : Rat) else ((10 ^ (-e).toNat : Nat) : Rat)⁻¹

/-- Optional sign character. -/
def takeSign : List Char → Int × List Char
  | '-' :: cs => (-1, cs)
  | '+' :: cs => (1, cs)
  | cs => (1, cs)

/-- Mantissa of a decimal literal: `digits`, `digits.digits`, `digits.` or
`.digits`; returns its value and the unconsumed rest. -/
def takeMant (cs : List Char) : Option (Rat × List Char) :=
  let ip := cs.takeWhile (·.isDigit)
  let r1 := cs.dropWhile (·.isDigit)
  match r1 with
  | '.' :: r2 =>
      let fp := r2.takeWhile (·.isDigit)
      let r3 := r2.dropWhile (·.isDigit)
      if ip.isEmpty && fp.isEmpty then none
      else some ((digVal ip : Rat) + (digVal fp : Rat) / ((10 ^ fp.length : Nat) : Rat), r3)
  | _ => if ip.isEmpty then none else some ((digVal ip : Rat), r1)

/-- Exponent suffix `e±digits` (or nothing); `none` on trailing garbage. -/
def takeExpo : List Char → Option Int
  | [] => some 0
  | 'e' :: cs =>
      let (sg, cs1) := takeSign cs
      let ds := cs1.takeWhile (·.isDigit)
      let rest := cs1.dropWhile (·.isDigit)
      if ds.isEmpty || !rest.isEmpty then none else some (sg * digVal ds)
  | 'E' :: cs =>
      let (sg, cs1) := takeSign cs
      let ds := cs1.takeWhile (·.isDigit)
      let rest := cs1.dropWhile (·.isDigit)
      if ds.isEmpty || !rest.isEmpty then none else some (sg * digVal ds)
  | _ => none

/-! #### IEEE-754 binary64 rounding

Python computes with doubles, so the parsed value of a decimal literal and
the product `len(df) * 0.7` must be rounded the way the hardware rounds:
round to nearest, ties to even, 53-bit significand, gradual underflow at
`2^-1074`.  Overflow is handled where it is observable (`mkDouble`). -/

/-- Fueled floor-log2: the number of halvings needed to bring `n` to 1.
Structural in the fuel so it evaluates inside `decide`. -/
def bitLogAux : Nat → Nat → Nat
  | 0, _ => 0
  | fuel + 1, n => if n ≤ 1 then 0 else bitLogAux fuel (n / 2) + 1

/-- Floor of the base-2 logarithm (junk 0 at 0). -/
def bitLog (n : Nat) : Nat := bitLogAux n n

/-- The greatest `e` with `2^e ≤ x`, for positive `x` (junk 0 otherwise):
from the bit lengths of numerator and denominator, corrected by one exact
comparison. -/
def ratExp2 (x : Rat) : Int :=
  if x ≤ 0 then 0
  else
    let a := x.num.natAbs
    let b := x.den
    let la := bitLog a
    let lb := bitLog b
    if b * 2 ^ la ≤ a * 2 ^ lb then (la : Int) - (lb : Int)
    else (la : Int) - (lb : Int) - 1

/-- Round a nonnegative rational to the nearest IEEE-754 binary64 value
(round half to even).  The exponent is unbounded above — overflow to
infinity is decided by the caller — and bounded below at the subnormal
grid `2^-1074`, giving gradual underflow. -/
def fl64 (x : Rat) : Rat :=
  if x ≤ 0 then 0
  else
    let ulp : Int := max (ratExp2 x - 52) (-1074)
    let m : Rat := x / pow2 ulp
    let lo : Int := ⌊m⌋
    let fr : Rat := m - (lo : Rat)
    let sig : Int :=
      if fr < 1 / 2 then lo
      else if 1 / 2 < fr then lo + 1
      else if lo % 2 = 0 then lo else lo + 1
    (sig : Rat) * pow2 ulp

/-- The binary64 value of the literal `0.7`: `0.7` rounds to
`6305039478318694 / 2^53`. -/
def q07 : Rat := 6305039478318694 / ((2 ^ 53 : Nat) : Rat)

/-- The threshold `len(df) * 0.7` exactly as Python evaluates it: the row
count converted to a double, multiplied by the double `0.7`, the product
rounded back to a double.  For example `10 * 0.7 == 7.0` exactly (the
halfway product ties to even) while `90 * 0.7 == 62.99999999999999…`,
strictly below 63. -/
def pyTimes07 (n : Nat) : Rat := fl64 (fl64 (n : Rat) * q07)

/-- Result of a Python float parse: a finite double (as the exact rational
it denotes), an infinity, or NaN. -/
inductive PyFloat where
  | finite (q : Rat)
  | inf (neg : Bool)
  | nan
deriving DecidableEq

/-- PEP-515 validity: every underscore sits strictly between two digits
(`prev` is the character before the current position). -/
def usOkAux : Option Char → List Char → Bool
  | _, [] => true
  | prev, c :: cs =>
      if c = '_' then
        (match prev with
         | some p => p.isDigit
         | none => false) &&
        (match cs with
         | c2 :: _ => c2.isDigit
         | [] => false) &&
        usOkAux (some c) cs
      else usOkAux (some c) cs

/-- Are all underscores of the token legally placed? -/
def usOk (cs : List Char) : Bool := usOkAux none cs

/-- Finish a numeric literal: mantissa, optional exponent, exact decimal
value, then one correct binary64 rounding; magnitudes at or beyond `2^1024`
overflow to infinity (so `float("1e999")` is `inf`). -/
def mkDouble (sg : Int) (m : Rat) (e : Int) : Option PyFloat :=
  let r := fl64 (m * pow10 e)
  if ((2 ^ 1024 : Nat) : Rat) ≤ r then some (.inf (sg < 0))
  else some (.finite ((sg : Rat) * r))

/-- The numeric-literal path shared by `float()` and `pd.to_numeric`:
decimal mantissa and optional exponent, rejecting trailing garbage. -/
def parseMagnitude (sg : Int) (cs : List Char) : Option PyFloat :=
  match takeMant cs with
  | none => none
  | some (m, rest) =>
      match takeExpo rest with
      | none => none
      | some e => mkDouble sg m e

/-- Python `float(s)`: optional surrounding whitespace, optional sign, then
(case-insensitively) `inf`, `infinity`, `nan`, or a decimal literal with
optional PEP-515 underscore grouping; the finite result is the nearest
binary64 value.  `none` models `ValueError`.  As elsewhere in the
embedding, the text universe is ASCII (Python additionally accepts
non-ASCII unicode decimal digits). -/
def pyFloat? (s : String) : Option PyFloat :=
  let cs0 := (stripStr s).toList.map lcChar
  if cs0.isEmpty then none
  else
    let (sg, cs1) := takeSign cs0
    if cs1 = ['i', 'n', 'f'] ∨ cs1 = ['i', 'n', 'f', 'i', 'n', 'i', 't', 'y'] then
      some (.inf (sg < 0))
    else if cs1 = ['n', 'a', 'n'] then some .nan
    else if usOk cs1 then parseMagnitude sg (cs1.filter fun c => c ≠ '_')
    else none

/-- The string parser behind `pd.to_numeric`: the same whitespace, sign,
`inf`/`infinity`/`nan` words and decimal grammar, but pandas's C parser
predates PEP 515 and accepts no underscore grouping. -/
def pdNumeric? (s : String) : Option PyFloat :=
  let cs0 := (stripStr s).toList.map lcChar
  if cs0.isEmpty then none
  else
    let (sg, cs1) := takeSign cs0
    if cs1 = ['i', 'n', 'f'] ∨ cs1 = ['i', 'n', 'f', 'i', 'n', 'i', 't', 'y'] then
      some (.inf (sg < 0))
    else if cs1 = ['n', 'a', 'n'] then some .nan
    else parseMagnitude sg cs1

/-- Source `pd.to_numeric(·, errors="coerce")` on one cell: numbers and
infinities survive, text parses — to a number, an infinity, or (for the NaN
words) a missing value — or becomes missing, missing stays missing. -/
def toNumeric : Cell → Cell
  | .missing => .missing
  | .num q => .num q
  | .inf neg => .inf neg
  | .text s =>
      match pdNumeric? s with
      | some (.finite q) => .num q
      | some (.inf neg) => .inf neg
      | some .nan => .missing
      | none => .missing

/-- Does this cell coerce to a non-missing numeric value
(`pd.to_numeric(...).notna()`)? -/
def coerceKeeps (c : Cell) : Bool := !(toNumeric c).isMissing

/-- Source `pd.to_numeric(cells, errors="coerce").notna().sum()`. -/
def coerceCount (cells : List Cell) : Nat := cells.countP coerceKeeps

/-- The non-missing values of a column, in order (`series.dropna()`). -/
def nonMissing (cells : List Cell) : List Cell :=
  cells.filter fun c => !c.isMissing

/-! ### Column access -/

/-- An index-passing map, the workhorse for per-column DataFrame updates. -/
def mapIdxFrom (f : Nat → α → β) (k : Nat) : List α → List β
  | [] => []
  | a :: as => f k a :: mapIdxFrom f (k + 1) as

/-- Cells of column `j`, top to bottom (`df[col]`). -/
def colCells (t : Table) (j : Nat) : List Cell :=
  t.rows.map fun r => r.getD j Cell.missing

/-- Dtype of column `j` (out-of-range indices read as non-object, so every
dtype guard in the engine fails on them). -/
def colDType (t : Table) (j : Nat) : DType := t.dtypes.getD j .numeric

/-- Overwrite column `j` with new cells (one per row) and a new dtype
(`df[col] = series`). -/
def setCol (t : Table) (j : Nat) (cells : List Cell) (d : DType) : Table :=
  { t with
    dtypes := mapIdxFrom (fun k dk => if k = j then d else dk) 0 t.dtypes
    rows := List.zipWith (fun r c => r.set j c) t.rows cells }

/-! ### Table-level deterministic cleaners -/

/-- Is every cell of the row missing (`isnull().all(axis=1)`)? -/
def rowAllMissing (r : List Cell) : Bool := r.all fun c => c.isMissing

/-- Source `df.dropna(how="all")`: drop the rows whose every cell is missing. -/
def remove_empty_rows (t : Table) : Table :=
  { t with rows := t.rows.filter fun r => !rowAllMissing r }

/-- First-occurrence duplicate dropping on a row list (`df.drop_duplicates()`),
with the rows already seen accumulated in `seen`. -/
def dropDupAux (seen : List (List Cell)) : List (List Cell) → List (List Cell)
  | [] => []
  | r :: rs => if r ∈ seen then dropDupAux seen rs else r :: dropDupAux (r :: seen) rs

/-- Source `df.drop_duplicates()`: keep the first occurrence of each full row tuple. -/
def remove_duplicates (t : Table) : Table :=
  { t with rows := dropDupAux [] t.rows }

/-- Number of rows equal to some earlier row (`df.duplicated().sum()`),
with the rows already seen accumulated in `seen`. -/
def dupAux (seen : List (List Cell)) : List (List Cell) → Nat
  | [] => 0
  | r :: rs => (if r ∈ seen then 1 else 0) + dupAux (r :: seen) rs

/-- Source `df.duplicated().sum()`. -/
def dupCount (rows : List (List Cell)) : Nat := dupAux [] rows

/-- The per-column decision of `basic_type_conversion`: the source replaces an
object column when `pd.to_numeric(df[col], errors="coerce").notna().sum() >
len(df) * 0.7` — a strict comparison whose right-hand side is the
double-precision product of the full row count (missing cells included,
not the non-missing count) with the double `0.7`. -/
def convertQ (t : Table) (j : Nat) : Bool :=
  colDType t j = DType.object ∧
    (coerceCount (colCells t j) : Rat) > pyTimes07 t.rowCount

/-- Source `basic_type_conversion`: every object column whose coercion clears the
threshold is replaced by its coerced cells (dtype becomes numeric); all other
columns are untouched.  The per-column decisions are independent in the
source loop (converting one column changes neither `len(df)` nor any other
column), so the simultaneous update is faithful. -/
def basic_type_conversion (t : Table) : Table :=
  { t with
    dtypes := mapIdxFrom (fun j d => if convertQ t j then DType.numeric else d) 0 t.dtypes
    rows := t.rows.map fun r =>
      mapIdxFrom (fun j c => if convertQ t j then toNumeric c else c) 0 r }

/-- The three always-applied table-level cleaners in source order. -/
def detClean (t : Table) : Table :=
  basic_type_conversion (remove_duplicates (remove_empty_rows t))

/-! ### Column-type-specific cleaners -/

/-- Source `clean_emails`: `series.str.lower().str.strip()`.  The pandas `.str`
accessor raises `AttributeError` when the object column holds no strings at
all but does hold non-string values (inferred non-string dtype); on a mixed
column it maps the non-string entries to `NaN` instead. -/
def cleanEmails (cells : List Cell) : Except String (List Cell) :=
  if (cells.any fun c => !c.isText && !c.isMissing) ∧ ¬cells.any Cell.isText then
    .error "Can only use .str accessor with string values!"
  else
    .ok (cells.map fun c =>
      match c with
      | .text s => .text (stripStr (lcStr s))
      | _ => .missing)

/-- Source `format_phone`: missing passes through; otherwise strip every non-digit
character of the value's string form and, when exactly ten digits remain,
format them as `(DDD) DDD-DDDD`, else return the digit string. -/
def format_phone (c : Cell) : Cell :=
  match c with
  | .missing => .missing
  | c =>
      let digits : List Char := (cellStr c).toList.filter (·.isDigit)
      if digits.length = 10 then
        .text ((['('] ++ digits.take 3 ++ [')', ' '] ++ (digits.drop 3).take 3
          ++ ['-'] ++ digits.drop 6).asString)
      else .text digits.asString

/-- Source `clean_phone_numbers`: `series.apply(format_phone)`. -/
def clean_phone_numbers (cells : List Cell) : List Cell := cells.map format_phone

/-- A minimal `YYYY-MM-DD` check standing for the date grammar accepted by
`pd.to_datetime`; only the parse/coerce split is observable downstream. -/
def isoDateOk (s : String) : Bool :=
  match s.toList with
  | [y1, y2, y3, y4, '-', m1, m2, '-', d1, d2] =>
      [y1, y2, y3, y4, m1, m2, d1, d2].all (·.isDigit) &&
        digVal [m1, m2] ≥ 1 && digVal [m1, m2] ≤ 12 &&
        digVal [d1, d2] ≥ 1 && digVal [d1, d2] ≤ 31
  | _ => false

/-- Source `clean_dates`: `pd.to_datetime(series, errors="coerce")` — parseable
values become normalized timestamps (kept here in their ISO text form),
unparseable values become missing, missing stays missing. -/
def clean_dates (cells : List Cell) : List Cell :=
  cells.map fun c =>
    match c with
    | .missing => .missing
    | c => if isoDateOk (cellStr c) then .text (cellStr c) else .missing

/-- Source `clean_money`: missing passes through; otherwise strip the currency
symbols `$ , € £ ¥` from the value's string form and parse the remainder
with `float`; on parse failure return the original value unchanged, and on
success return the parsed float — which for the NaN words is the float NaN,
i.e. a missing cell. -/
def clean_money (c : Cell) : Cell :=
  match c with
  | .missing => .missing
  | c =>
      let cleaned := ((cellStr c).toList.filter
        fun ch => !(ch ∈ ['$', ',', '€', '£', '¥'])).asString
      match pyFloat? cleaned with
      | some (.finite q) => .num q
      | some (.inf neg) => .inf neg
      | some .nan => .missing
      | none => c

/-- Source `clean_currency`: `series.apply(clean_money)`. -/
def clean_currency (cells : List Cell) : List Cell := cells.map clean_money

/-! ### Issue detector -/

/-- One-decimal rendering of a non-negative percentage (Python `f"{x:.1f}"`). -/
def fmt1 (q : Rat) : String :=
  let m : Int := round (q * 10)
  toString (m / 10) ++ "." ++ toString (m.natAbs % 10)

/-- The per-column missing-value percentage of `detect_issues`.  The source
divides by `len(df)` with no zero guard, but the dividend
`df[col].isnull().sum()` is a numpy scalar, so a zero row count makes the
division produce `nan` with a `RuntimeWarning` rather than raising; the
subsequent `nan > 50` comparison is false.  `none` models that `nan`. -/
def nullPct (t : Table) (j : Nat) : Option Rat :=
  if t.rowCount = 0 then none
  else some ((((colCells t j).countP Cell.isMissing : Nat) : Rat) / (t.rowCount : Rat) * 100)

/-- Source `detect_issues`: the four independent diagnostics, in source order. -/
def detect_issues (t : Table) : List String :=
  let empty_rows := t.rows.countP rowAllMissing
  let i1 : List String :=
    if empty_rows > 0 then [toString empty_rows ++ " completely empty rows found"] else []
  let duplicate_rows := dupCount t.rows
  let i2 : List String :=
    if duplicate_rows > 0 then [toString duplicate_rows ++ " duplicate rows found"] else []
  let i3 : List String :=
    (List.range t.colCount).filterMap fun j =>
      match nullPct t j with
      | none => none
      | some pct =>
          if pct > 50 then
            some ("Column '" ++ t.colNames.getD j "" ++ "' has " ++ fmt1 pct
              ++ "% missing values")
          else none
  let i4 : List String :=
    (List.range t.colCount).filterMap fun j =>
      if colDType t j = DType.object then
        let sample := (nonMissing (colCells t j)).take 10
        if sample.length > 0 ∧
            (coerceCount sample : Rat) > (sample.length : Rat) * (0.7 : Rat) then
          some ("Column '" ++ t.colNames.getD j ""
            ++ "' contains numeric data but is stored as text")
        else none
      else none
  i1 ++ i2 ++ i3 ++ i4

/-! ### Quality scorer -/

/-- Number of missing cells in the whole table (`df.isnull().sum().sum()`). -/
def nullCells (t : Table) : Nat :=
  (t.rows.map fun r => r.countP Cell.isMissing).sum

/-- Factor 1, completeness: `(total_cells - null_cells) / total_cells`. -/
def completenessF (t : Table) : Rat :=
  ((t.rowCount * t.colCount : Nat) - (nullCells t : Rat)) / ((t.rowCount * t.colCount : Nat) : Rat)

/-- Factor 2, uniqueness: `1 - duplicate_rows / len(df)`. -/
def uniquenessF (t : Table) : Rat :=
  1 - (dupCount t.rows : Rat) / (t.rowCount : Rat)

/-- Per-column consistency contribution: an object column whose first twenty
non-missing values are more than 80% numeric-coercible scores 0.5 (mis-typed
numeric data), every other column scores 1. -/
def consCol (d : DType) (cells : List Cell) : Rat :=
  if d = DType.object then
    let sample := (nonMissing cells).take 20
    if sample.length > 0 then
      if (coerceCount sample : Rat) > (sample.length : Rat) * (0.8 : Rat) then 0.5 else 1
    else 1
  else 1

/-- Factor 3, consistency: the per-column scores averaged over all columns. -/
def consistencyF (t : Table) : Rat :=
  (((List.range t.colCount).map fun j => consCol (colDType t j) (colCells t j)).sum)
    / (t.colCount : Rat)

/-- Per-column validity contribution: an object column whose maximum
string-cast length reaches 1000 scores 0.5, every other column scores 1. -/
def validCol (d : DType) (cells : List Cell) : Rat :=
  if d = DType.object then
    let maxLen := (cells.map fun c => (cellStr c).length).foldr max 0
    if maxLen < 1000 then 1 else 0.5
  else 1

/-- Factor 4, validity: the per-column scores averaged over all columns. -/
def validityF (t : Table) : Rat :=
  (((List.range t.colCount).map fun j => validCol (colDType t j) (colCells t j)).sum)
    / (t.colCount : Rat)

/-- Python `round(x, 1)` on an exact value. -/
def pyRound1 (q : Rat) : Rat := ((round (q * 10) : Int) : Rat) / 10

/-- The weighted factor sum of `calculate_quality_score`, times 100. -/
def rawScore (t : Table) : Rat :=
  (completenessF t * (0.4 : Rat) + uniquenessF t * (0.3 : Rat)
    + consistencyF t * (0.2 : Rat) + validityF t * (0.1 : Rat)) * 100

/-- Source `calculate_quality_score`: 0 for an empty frame (a zero-length axis),
otherwise the weighted factor sum times 100, clamped to [0, 100] and rounded
to one decimal. -/
def calculate_quality_score (t : Table) : Rat :=
  if t.rowCount = 0 ∨ t.colCount = 0 then 0
  else pyRound1 (max 0 (min 100 (rawScore t)))

/-! ### The external-service environment

The two Groq calls and the effect of `exec` on generated code are the only
non-deterministic steps; they are threaded through an explicit environment.
An `Except.error` value models the call raising an exception. -/

/-- One run's external collaborators: the classification completion for a
column (given its name and sampled values), the generated instruction code
(given the frame shape and the instruction), and the effect of executing a
generated snippet. -/
structure Env where
  classify : String → List Cell → Except String String
  genCode : Nat → List String → String → Except String String
  runCode : String → Table → Except String Table

/-- The first three non-missing values of a column
(`df[col].dropna().head(3).tolist()`). -/
def sample3 (cells : List Cell) : List Cell := (nonMissing cells).take 3

/-- Source `analyze_columns_with_llm`: every object column with a non-empty sample
is sent to the service; a successful completion is stripped and lower-cased
and recorded verbatim, an exception falls back to the label `"text"`.  The
result keeps the column index alongside the source's name-to-label pairs. -/
def analyze_columns (env : Env) (t : Table) : List (Nat × String × String) :=
  (List.range t.colCount).filterMap fun j =>
    if colDType t j = DType.object then
      if (sample3 (colCells t j)).isEmpty then none
      else
        some (j, t.colNames.getD j "",
          match env.classify (t.colNames.getD j "") (sample3 (colCells t j)) with
          | .ok content => stripStr (lcStr content)
          | .error _ => "text")
    else none

/-- The per-column dispatch loop of `clean_data` (lines 48–60): each
classified column is cleaned by the cleaner its label selects, appending one
report line; labels outside the four handled ones do nothing.  An exception
from a cleaner stops the loop, keeping the table and report lines
accumulated so far. -/
def dispatchLoop (t : Table) (ops : List String) :
    List (Nat × String × String) → Table × List String × Option String
  | [] => (t, ops, none)
  | (j, name, ty) :: rest =>
    if ty = "email" then
      match cleanEmails (colCells t j) with
      | .error e => (t, ops, some e)
      | .ok cells =>
          dispatchLoop (setCol t j cells DType.object)
            (ops ++ ["Cleaned emails in '" ++ name ++ "'"]) rest
    else if ty = "phone" then
      dispatchLoop (setCol t j (clean_phone_numbers (colCells t j)) DType.object)
        (ops ++ ["Standardized phones in '" ++ name ++ "'"]) rest
    else if ty = "date" then
      dispatchLoop (setCol t j (clean_dates (colCells t j)) DType.datetime)
        (ops ++ ["Standardized dates in '" ++ name ++ "'"]) rest
    else if ty = "currency" then
      let cells := clean_currency (colCells t j)
      dispatchLoop
        (setCol t j cells (if cells.all fun c => !c.isText then DType.numeric else DType.object))
        (ops ++ ["Cleaned currency in '" ++ name ++ "'"]) rest
    else dispatchLoop t ops rest

/-- Is `needle` a prefix of `hay`? -/
def leadsWith : List Char → List Char → Bool
  | [], _ => true
  | _ :: _, [] => false
  | a :: as, b :: bs => a = b && leadsWith as bs

/-- Does `needle` occur as a contiguous substring of `hay`? -/
def subStr (needle : List Char) : List Char → Bool
  | [] => needle.isEmpty
  | c :: cs => leadsWith needle (c :: cs) || subStr needle cs

/-- The deny-list of the instruction safety gate. -/
def dangerousTokens : List String := ["import", "exec", "eval", "open", "file"]

/-- The safety gate: does the lower-cased snippet contain any deny-listed
substring? -/
def containsDangerous (code : String) : Bool :=
  dangerousTokens.any fun tok => subStr tok.toList (lcStr code).toList

/-- Source `apply_user_instructions`: ask the service for a snippet; on a service
exception, a deny-listed snippet, or an execution exception return the table
unchanged, otherwise return the executed snippet's result.  Every failure is
absorbed here — the caller cannot observe which branch was taken. -/
def apply_user_instructions (env : Env) (t : Table) (instructions : String) : Table :=
  match env.genCode t.rowCount t.colNames instructions with
  | .error _ => t
  | .ok code =>
      if containsDangerous code then t
      else
        match env.runCode code t with
        | .error _ => t
        | .ok t2 => t2

/-- Result of the optional LLM-powered block of `clean_data` (lines 41–68):
the possibly further-mutated table, the report lines the block appended, the
classification map (recorded before dispatch, hence present even when
dispatch fails), and the exception captured by the surrounding
`try`/`except`, if any. -/
structure LLMOut where
  table : Table
  ops : List String
  analysis : Option (List (String × String))
  err : Option String
deriving DecidableEq

/-- The LLM-powered block: classify, dispatch the per-column cleaners, then
interpret a non-empty instruction string.  A dispatch exception ends the
block with the state reached so far; the instruction report line is appended
whenever the instruction step runs, whether or not its snippet was executed. -/
def llm_block (env : Env) (t : Table) (instructions : String) : LLMOut :=
  let ana := analyze_columns env t
  let pairs := ana.map fun x => (x.2.1, x.2.2)
  match dispatchLoop t [] ana with
  | (t2, ops, some e) => ⟨t2, ops, some pairs, some e⟩
  | (t2, ops, none) =>
      if instructions = "" then ⟨t2, ops, some pairs, none⟩
      else
        ⟨apply_user_instructions env t2 instructions,
          ops ++ ["Applied custom instructions: " ++ instructions], some pairs, none⟩

/-! ### Pipeline orchestrator -/

/-- The cleaning report (`cleaning_report`): the keys that are conditional in
the source dictionary are `Option`-valued here. -/
structure Report where
  original_rows : Nat
  original_columns : Nat
  operations_performed : List String
  data_quality_score_before : Rat
  issues_found : List String
  column_analysis : Option (List (String × String))
  llm_error : Option String
  final_rows : Nat
  final_columns : Nat
  data_quality_score_after : Rat
  rows_removed : Int
deriving DecidableEq

/-- The value `clean_data` returns: the cleaned table and its report. -/
structure CleanResult where
  cleaned_data : Table
  report : Report
deriving DecidableEq

/-- Source `clean_data`: initial score and issues, the three deterministic cleaners
with their report lines, the optional LLM block (skipped without a configured
client or in basic-only mode), and the final counts and score.  `env = none`
models an unconfigured Groq client. -/
def clean_data (env : Option Env) (t : Table) (user_instructions : String)
    (basic_only : Bool) : CleanResult :=
  let q0 := calculate_quality_score t
  let issues0 := detect_issues t
  let t1 := remove_empty_rows t
  let t2 := remove_duplicates t1
  let t3 := basic_type_conversion t2
  let lo : LLMOut :=
    match env, basic_only with
    | some e, false => llm_block e t3 user_instructions
    | _, _ => ⟨t3, [], none, none⟩
  { cleaned_data := lo.table
    report :=
      { original_rows := t.rowCount
        original_columns := t.colCount
        operations_performed :=
          ["Removed empty rows", "Removed duplicates", "Basic type conversion"] ++ lo.ops
        data_quality_score_before := q0
        issues_found := issues0
        column_analysis := lo.analysis
        llm_error := lo.err
        final_rows := lo.table.rowCount
        final_columns := lo.table.colCount
        data_quality_score_after := calculate_quality_score lo.table
        rows_removed := (t.rowCount : Int) - (lo.table.rowCount : Int) } }

/-- The closed label set of the column-classification contract. -/
def closedLabels : List String :=
  ["email", "phone", "date", "name", "address", "currency", "url", "text"]

/-! ### Concrete tables and environments used to instantiate the theorems -/

/-- A one-column table with ten rows: four numeric strings, one non-numeric
string, five missing cells — so 80% of the non-missing values coerce but the
coercible count (4) does not exceed `10 * 0.7`. -/
def tblConv : Table :=
  ⟨["v"], [.object],
    [[.text "1"], [.text "2"], [.text "3"], [.text "4"], [.text "x"],
     [.missing], [.missing], [.missing], [.missing], [.missing]]⟩

/-- A one-column table of four distinct strings, three of them numeric: the
coercion step turns `"a"` into a fully-missing row. -/
def tblIdem : Table :=
  ⟨["v"], [.object], [[.text "1"], [.text "2"], [.text "3"], [.text "a"]]⟩

/-- A one-column table of two non-numeric strings: already a fixed point of
the deterministic cleaners. -/
def tblStable : Table := ⟨["v"], [.object], [[.text "pear"], [.text "plum"]]⟩

/-- A one-column table with rows `[A, A, B]` for `A = ["1"]`, `B = ["2"]`:
after duplicate removal both surviving values coerce to numbers. -/
def tblDup : Table := ⟨["x"], [.object], [[.text "1"], [.text "1"], [.text "2"]]⟩

/-- A table with one column and no rows: the shape the missing-percentage
check divides by zero on. -/
def tblNoRows : Table := ⟨["a"], [.object], []⟩

/-- A quality-score example: two columns, two rows, one missing cell, no
duplicates, nothing numeric-as-text, no over-long strings. -/
def tblScore : Table :=
  ⟨["a", "b"], [.object, .object],
    [[.text "x", .missing], [.text "y", .text "y"]]⟩

/-- A classification service whose completion is prose rather than one of the
eight labels. -/
def envBadLabel : Env :=
  ⟨fun _ _ => .ok "A Phone Number", fun _ _ _ => .error "unused", fun _ t => .ok t⟩

/-- A single text column for the classifier. -/
def tblOneText : Table := ⟨["c"], [.object], [[.text "hello"]]⟩

/-- A service that classifies everything as plain text and generates an
`import`-bearing snippet for any instruction. -/
def envGate : Env :=
  ⟨fun _ _ => .ok "text", fun _ _ _ => .ok "import os", fun _ t => .ok t⟩

/-- A single harmless text column for the instruction-gate run. -/
def tblGate : Table := ⟨["x"], [.object], [[.text "hello"]]⟩

/-- A service that classifies column `x` as `email`; dispatching the email
cleaner onto `x`, an object column holding a number and no string, makes the
pandas `.str` accessor raise inside the `try` block of `clean_data`. -/
def envCrash : Env :=
  ⟨fun n _ => .ok (if n = "x" then "email" else "text"),
   fun _ _ _ => .error "unused", fun _ t => .ok t⟩

/-- Two object columns; `x` holds one number and three missing cells (so it
survives coercion untouched and samples non-empty), `y` holds distinct
non-numeric strings keeping every row alive. -/
def tblCrash : Table :=
  ⟨["x", "y"], [.object, .object],
    [[.num 1, .text "a"], [.missing, .text "bb"],
     [.missing, .text "ccc"], [.missing, .text "dddd"]]⟩

/-! ### Helper lemmas -/

theorem mapIdxFrom_length (f : Nat → α → β) (k : Nat) (l : List α) :
    (mapIdxFrom f k l).length = l.length := by
  induction l generalizing k with
  | nil => rfl
  | cons a as ih => simp [mapIdxFrom, ih]

theorem mapIdxFrom_getD (f : Nat → α → α) (k j : Nat) (l : List α) (d : α)
    (hj : j < l.length) :
    (mapIdxFrom f k l).getD j d = f (k + j) (l.getD j d) := by
  induction l generalizing k j with
  | nil => simp at hj
  | cons a as ih =>
      cases j with
      | zero => simp [mapIdxFrom]
      | succ j =>
          simp only [mapIdxFrom, List.getD_cons_succ]
          rw [ih (k + 1) j (by simpa using hj)]
          ring_nf

theorem mapIdxFrom_id (f : Nat → α → α) (k : Nat) (l : List α)
    (hf : ∀ i a, f i a = a) : mapIdxFrom f k l = l := by
  induction l generalizing k with
  | nil => rfl
  | cons a as ih => simp [mapIdxFrom, hf, ih]

theorem dupAux_le (seen : List (List Cell)) (l : List (List Cell)) :
    dupAux seen l ≤ l.length := by
  induction l generalizing seen with
  | nil => simp [dupAux]
  | cons r rs ih =>
      simp only [dupAux, List.length_cons]
      have := ih (r :: seen)
      split <;> omega

theorem dupCount_le (l : List (List Cell)) : dupCount l ≤ l.length :=
  dupAux_le [] l

theorem dropDupAux_eq_self (seen : List (List Cell)) (l : List (List Cell))
    (hs : ∀ x ∈ l, x ∉ seen) (hn : l.Nodup) : dropDupAux seen l = l := by
  induction l generalizing seen with
  | nil => rfl
  | cons r rs ih =>
      have hr : r ∉ seen := hs r (List.mem_cons_self r rs)
      simp only [dropDupAux, if_neg hr]
      rw [ih (r :: seen) ?_ hn.of_cons]
      intro x hx
      simp only [List.mem_cons]
      rintro (rfl | hxs)
      · exact (List.nodup_cons.mp hn).1 hx
      · exact hs x (List.mem_cons_of_mem r hx) hxs

theorem remove_empty_rows_eq_self (t : Table)
    (h : ∀ r ∈ t.rows, rowAllMissing r = false) : remove_empty_rows t = t := by
  unfold remove_empty_rows
  have : t.rows.filter (fun r => !rowAllMissing r) = t.rows :=
    List.filter_eq_self.mpr fun r hr => by simp [h r hr]
  cases t with
  | mk cn dt rs => simpa using this

theorem remove_duplicates_eq_self (t : Table) (h : t.rows.Nodup) :
    remove_duplicates t = t := by
  unfold remove_duplicates
  have : dropDupAux [] t.rows = t.rows :=
    dropDupAux_eq_self [] t.rows (fun x _ hx => (List.not_mem_nil x) hx) h
  cases t with
  | mk cn dt rs => simpa using this

theorem mapIdxFrom_getD_oob (f : Nat → α → α) (k j : Nat) (l : List α) (d : α)
    (hj : l.length ≤ j) : (mapIdxFrom f k l).getD j d = d :=
  List.getD_eq_default _ _ (by rw [mapIdxFrom_length]; exact hj)

theorem colCells_conv (t : Table) (j : Nat) :
    colCells (basic_type_conversion t) j =
      if convertQ t j then (colCells t j).map toNumeric else colCells t j := by
  unfold colCells basic_type_conversion
  simp only [List.map_map]
  by_cases hq : convertQ t j
  · rw [if_pos hq]
    apply List.map_congr_left
    intro r _
    simp only [Function.comp_apply]
    by_cases hj : j < r.length
    · rw [mapIdxFrom_getD _ 0 j r _ hj]
      simp [hq]
    · rw [mapIdxFrom_getD_oob _ 0 j r _ (le_of_not_lt hj),
        List.getD_eq_default _ _ (le_of_not_lt hj)]
      rfl
  · rw [if_neg hq]
    apply List.map_congr_left
    intro r _
    simp only [Function.comp_apply]
    by_cases hj : j < r.length
    · rw [mapIdxFrom_getD _ 0 j r _ hj]
      simp [hq]
    · rw [mapIdxFrom_getD_oob _ 0 j r _ (le_of_not_lt hj),
        List.getD_eq_default _ _ (le_of_not_lt hj)]

theorem colDType_conv (t : Table) (j : Nat) :
    colDType (basic_type_conversion t) j =
      if convertQ t j then DType.numeric else colDType t j := by
  unfold colDType basic_type_conversion
  by_cases hj : j < t.dtypes.length
  · rw [show ({ t with
        dtypes := mapIdxFrom (fun j d => if convertQ t j then DType.numeric else d) 0 t.dtypes,
        rows := t.rows.map fun r =>
          mapIdxFrom (fun j c => if convertQ t j then toNumeric c else c) 0 r } : Table).dtypes
      = mapIdxFrom (fun j d => if convertQ t j then DType.numeric else d) 0 t.dtypes from rfl]
    rw [mapIdxFrom_getD _ 0 j _ _ hj]
    simp
  · rw [List.getD_eq_default _ _ (by rw [mapIdxFrom_length]; omega),
      List.getD_eq_default _ _ (by omega)]
    simp

theorem convertQ_object (t : Table) (j : Nat) (h : convertQ t j = true) :
    colDType t j = DType.object := by
  unfold convertQ at h
  simpa using (of_decide_eq_true h).1

theorem conv_rowCount (t : Table) : (basic_type_conversion t).rowCount = t.rowCount := by
  unfold basic_type_conversion Table.rowCount
  simp

theorem conv_colNames (t : Table) : (basic_type_conversion t).colNames = t.colNames := rfl

theorem convertQ_conv (t : Table) (j : Nat) :
    convertQ (basic_type_conversion t) j = false := by
  by_cases hq : convertQ t j
  · have hd : colDType (basic_type_conversion t) j = DType.numeric := by
      rw [colDType_conv, if_pos hq]
    unfold convertQ
    simp [hd]
  · have hd : colDType (basic_type_conversion t) j = colDType t j := by
      rw [colDType_conv, if_neg hq]
    have hc : colCells (basic_type_conversion t) j = colCells t j := by
      rw [colCells_conv, if_neg hq]
    unfold convertQ at hq ⊢
    rw [hd, hc, conv_rowCount]
    simpa using hq

theorem conv_eq_self (t : Table) (h : ∀ j, convertQ t j = false) :
    basic_type_conversion t = t := by
  unfold basic_type_conversion
  cases t with
  | mk cn dt rs =>
      simp only [Table.mk.injEq, true_and]
      constructor
      · exact mapIdxFrom_id _ 0 dt fun i a => by simp [h i]
      · have : ∀ r ∈ rs,
            mapIdxFrom (fun j c =>
              if convertQ ⟨cn, dt, rs⟩ j = true then toNumeric c else c) 0 r = r :=
          fun r _ => mapIdxFrom_id _ 0 r fun i a => by simp [h i]
        calc rs.map _ = rs.map id := List.map_congr_left fun r hr => this r hr
          _ = rs := List.map_id rs

theorem conv_idem (t : Table) :
    basic_type_conversion (basic_type_conversion t) = basic_type_conversion t :=
  conv_eq_self _ fun j => convertQ_conv t j

theorem dropDupAux_length_le (seen : List (List Cell)) (l : List (List Cell)) :
    (dropDupAux seen l).length ≤ l.length := by
  induction l generalizing seen with
  | nil => simp [dropDupAux]
  | cons r rs ih =>
      simp only [dropDupAux]
      by_cases hr : r ∈ seen
      · rw [if_pos hr]
        exact Nat.le_succ_of_le (ih seen)
      · rw [if_neg hr]
        simpa using Nat.succ_le_succ (ih (r :: seen))

theorem dropDupAux_length_lt (seen : List (List Cell)) (l : List (List Cell)) :
    (¬ l.Nodup ∨ ∃ x ∈ l, x ∈ seen) → (dropDupAux seen l).length < l.length := by
  induction l generalizing seen with
  | nil =>
      rintro (h | ⟨x, hx, _⟩)
      · exact absurd List.nodup_nil h
      · exact absurd hx (List.not_mem_nil x)
  | cons r rs ih =>
      intro h
      simp only [dropDupAux]
      by_cases hr : r ∈ seen
      · rw [if_pos hr]
        exact Nat.lt_succ_of_le (dropDupAux_length_le seen rs)
      · rw [if_neg hr]
        have h' : ¬ rs.Nodup ∨ ∃ x ∈ rs, x ∈ r :: seen := by
          rcases h with h | ⟨x, hx, hxs⟩
          · by_cases hrin : r ∈ rs
            · exact Or.inr ⟨r, hrin, List.mem_cons_self r seen⟩
            · exact Or.inl fun hnd => h (List.nodup_cons.mpr ⟨hrin, hnd⟩)
          · rcases List.mem_cons.mp hx with rfl | hx2
            · exact absurd hxs hr
            · exact Or.inr ⟨x, hx2, List.mem_cons_of_mem r hxs⟩
        simpa using Nat.succ_lt_succ (ih (r :: seen) h')

theorem dropDupAux_nodup (seen : List (List Cell)) (l : List (List Cell)) :
    (dropDupAux seen l).Nodup ∧ ∀ x ∈ dropDupAux seen l, x ∉ seen := by
  induction l generalizing seen with
  | nil => exact ⟨List.nodup_nil, by simp [dropDupAux]⟩
  | cons r rs ih =>
      simp only [dropDupAux]
      by_cases hr : r ∈ seen
      · rw [if_pos hr]
        exact ih seen
      · rw [if_neg hr]
        obtain ⟨hnd, hns⟩ := ih (r :: seen)
        refine ⟨List.nodup_cons.mpr ⟨?_, hnd⟩, ?_⟩
        · intro hmem
          exact (hns _ hmem) (List.mem_cons_self r seen)
        · intro x hx
          rcases List.mem_cons.mp hx with rfl | hx2
          · exact hr
          · exact fun hxs => (hns x hx2) (List.mem_cons_of_mem r hxs)

/-! ### Theorems for the claims -/

/-- C8: for every non-missing value the phone cleaner strips all non-digit
characters of the value's string form and formats a ten-digit result as
`(DDD) DDD-DDDD`, otherwise returning the digit string; missing passes
through; in particular `"555-123-4567"` maps to `"(555) 123-4567"` and
`"12345"` maps to `"12345"`. -/
theorem phone_cleaner_spec :
    (∀ c : Cell, c ≠ .missing →
      format_phone c =
        (let digits : List Char := (cellStr c).toList.filter (·.isDigit)
         if digits.length = 10 then
           Cell.text ((['('] ++ digits.take 3 ++ [')', ' '] ++ (digits.drop 3).take 3
             ++ ['-'] ++ digits.drop 6).asString)
         else Cell.text digits.asString)) ∧
    format_phone (.text "555-123-4567") = .text "(555) 123-4567" ∧
    format_phone (.text "12345") = .text "12345" ∧
    format_phone .missing = .missing := by
  refine ⟨fun c hc => ?_, by decide, by decide, rfl⟩
  cases c with
  | missing => exact absurd rfl hc
  | text s => rfl
  | num q => rfl
  | inf neg => rfl

/-- C8 witness: the phone-cleaner characterization applied to the concrete
input `"555-123-4567"`. -/
theorem phone_cleaner_spec_witness :
    format_phone (.text "555-123-4567") =
      (let digits : List Char := (cellStr (.text "555-123-4567")).toList.filter (·.isDigit)
       if digits.length = 10 then
         Cell.text ((['('] ++ digits.take 3 ++ [')', ' '] ++ (digits.drop 3).take 3
           ++ ['-'] ++ digits.drop 6).asString)
       else Cell.text digits.asString) :=
  phone_cleaner_spec.1 (.text "555-123-4567") (by decide)

/-- C9 counterexample: the remainder left after stripping the currency
symbols is parsed with Python `float`, which also accepts the word `nan` —
so the non-missing input `"nan"` parses *successfully* to the float NaN and
the resulting cell is missing, refuting the claim's "it is never converted
to missing". -/
theorem currency_nan_counterexample :
    Cell.text "nan" ≠ Cell.missing ∧ clean_money (.text "nan") = Cell.missing := by
  decide

/-- C9 amended: for every non-missing value the currency cleaner strips the
five currency symbols from the value's string form and parses the remainder
with Python `float` (decimal literals with optional PEP-515 underscore
grouping, and the words `inf`, `infinity`, `nan`, case-insensitively); on
parse failure the original value is returned unchanged, and a successful
parse yields the parsed float — a finite number, an infinity, or, exactly
for the NaN words, a missing cell.  In particular `"$1,234.50"` maps to the
number 1234.50, `"N/A"` stays the string `"N/A"`, and `"1_000"` coerces to
1000. -/
theorem currency_cleaner_spec :
    (∀ c : Cell, c ≠ .missing →
      clean_money c =
        (let cleaned := ((cellStr c).toList.filter
            fun ch => !(ch ∈ ['$', ',', '€', '£', '¥'])).asString
         match pyFloat? cleaned with
         | some (.finite q) => Cell.num q
         | some (.inf neg) => Cell.inf neg
         | some .nan => Cell.missing
         | none => c)) ∧
    clean_money (.text "$1,234.50") = .num (1234.50 : Rat) ∧
    clean_money (.text "N/A") = .text "N/A" ∧
    clean_money (.text "1_000") = .num 1000 ∧
    clean_money .missing = .missing := by
  refine ⟨fun c hc => ?_, by decide, by decide, by decide, rfl⟩
  cases c with
  | missing => exact absurd rfl hc
  | text s => rfl
  | num q => rfl
  | inf neg => rfl

/-- C9 amended witness: the currency-cleaner characterization applied to
the concrete input `"$1,234.50"`. -/
theorem currency_cleaner_spec_witness :
    clean_money (.text "$1,234.50") =
      (let cleaned := ((cellStr (.text "$1,234.50")).toList.filter
          fun ch => !(ch ∈ ['$', ',', '€', '£', '¥'])).asString
       match pyFloat? cleaned with
       | some (.finite q) => Cell.num q
       | some (.inf neg) => Cell.inf neg
       | some .nan => Cell.missing
       | none => Cell.text "$1,234.50") :=
  currency_cleaner_spec.1 (.text "$1,234.50") (by decide)

/-- C10 counterexample: on the one-column zero-row table the unguarded
division `isnull().sum() / len(df)` is a numpy-scalar operation, which
yields `nan` with a `RuntimeWarning` instead of raising; the `> 50`
comparison on `nan` is false and `detect_issues` returns a (here empty)
diagnostic list rather than failing. -/
theorem detect_issues_zero_rows_counterexample :
    tblNoRows.colCount = 1 ∧ tblNoRows.rowCount = 0 ∧ detect_issues tblNoRows = [] := by
  decide

/-- C10 amended: the per-column missing-percentage check indeed divides by the
row count with no zero guard, but because the dividend is a numpy scalar the
zero-row division produces `nan` (with a runtime warning) rather than an
exception, `nan > 50` is false, and `detect_issues` is total: on every
zero-row table it returns the empty diagnostic list. -/
theorem detect_issues_zero_rows_total (t : Table) (h : t.rows = []) :
    detect_issues t = [] := by
  have hc : ∀ j, colCells t j = [] := fun j => by simp [colCells, h]
  unfold detect_issues
  simp [h, Table.rowCount, dupCount, dupAux, nullPct, hc, nonMissing]

/-- C10 amended witness: `detect_issues` applied to a concrete two-column
zero-row table. -/
theorem detect_issues_zero_rows_total_witness :
    detect_issues ⟨["a", "b"], [.object, .numeric], []⟩ = [] :=
  detect_issues_zero_rows_total ⟨["a", "b"], [.object, .numeric], []⟩ rfl

theorem list_sum_nonneg_rat (l : List Rat) (h : ∀ x ∈ l, 0 ≤ x) : 0 ≤ l.sum := by
  induction l with
  | nil => simp
  | cons a as ih =>
      simp only [List.sum_cons]
      have ha := h a (List.mem_cons_self a as)
      have has := ih fun x hx => h x (List.mem_cons_of_mem a hx)
      linarith

theorem list_sum_le_rat (l : List Rat) (b : Rat) (h : ∀ x ∈ l, x ≤ b) :
    l.sum ≤ (l.length : Rat) * b := by
  induction l with
  | nil => simp
  | cons a as ih =>
      simp only [List.sum_cons, List.length_cons]
      have ha := h a (List.mem_cons_self a as)
      have has := ih fun x hx => h x (List.mem_cons_of_mem a hx)
      push_cast
      nlinarith

theorem pyRound1_nonneg (q : Rat) (h : 0 ≤ q) : 0 ≤ pyRound1 q := by
  unfold pyRound1
  have h1 : (0 : Int) ≤ round (q * 10) := by
    rw [round_eq]
    exact Int.le_floor.mpr (by push_cast; linarith)
  have h2 : (0 : Rat) ≤ ((round (q * 10) : Int) : Rat) := by exact_mod_cast h1
  exact div_nonneg h2 (by norm_num)

theorem pyRound1_le_100 (q : Rat) (h : q ≤ 100) : pyRound1 q ≤ 100 := by
  unfold pyRound1
  have h1 : round (q * 10) ≤ 1000 := by
    rw [round_eq]
    have : ⌊q * 10 + 1 / 2⌋ < 1001 := Int.floor_lt.mpr (by push_cast; linarith)
    omega
  rw [div_le_iff₀ (by norm_num : (0 : Rat) < 10)]
  calc ((round (q * 10) : Int) : Rat) ≤ 1000 := by exact_mod_cast h1
    _ = 100 * 10 := by norm_num

theorem nullCells_le (t : Table) (hwf : t.WF) :
    nullCells t ≤ t.rowCount * t.colCount := by
  unfold nullCells
  have hb : ∀ x ∈ t.rows.map (fun r => r.countP Cell.isMissing), x ≤ t.colCount := by
    intro x hx
    rcases List.mem_map.mp hx with ⟨r, hr, rfl⟩
    calc r.countP Cell.isMissing ≤ r.length := List.countP_le_length _
      _ = t.colCount := hwf.2 r hr
  calc (t.rows.map fun r => r.countP Cell.isMissing).sum
      ≤ (t.rows.map fun r => r.countP Cell.isMissing).length • t.colCount :=
        List.sum_le_card_nsmul _ _ hb
    _ = t.rowCount * t.colCount := by simp [Table.rowCount, smul_eq_mul]

theorem completenessF_bounds (t : Table) (hwf : t.WF) (hr : t.rowCount ≠ 0)
    (hc : t.colCount ≠ 0) : 0 ≤ completenessF t ∧ completenessF t ≤ 1 := by
  unfold completenessF
  have htot : (0 : Rat) < ((t.rowCount * t.colCount : Nat) : Rat) := by
    have : 0 < t.rowCount * t.colCount :=
      Nat.mul_pos (Nat.pos_of_ne_zero hr) (Nat.pos_of_ne_zero hc)
    exact_mod_cast this
  have hnull : (nullCells t : Rat) ≤ ((t.rowCount * t.colCount : Nat) : Rat) := by
    exact_mod_cast nullCells_le t hwf
  have hnn : (0 : Rat) ≤ (nullCells t : Rat) := by positivity
  constructor
  · apply div_nonneg _ htot.le
    linarith
  · rw [div_le_one htot]
    linarith

theorem uniquenessF_bounds (t : Table) (hr : t.rowCount ≠ 0) :
    0 ≤ uniquenessF t ∧ uniquenessF t ≤ 1 := by
  unfold uniquenessF
  have hrc : (0 : Rat) < (t.rowCount : Rat) := by
    exact_mod_cast Nat.pos_of_ne_zero hr
  have hd0 : (0 : Rat) ≤ (dupCount t.rows : Rat) := by positivity
  have hdle : (dupCount t.rows : Rat) ≤ (t.rowCount : Rat) := by
    exact_mod_cast dupCount_le t.rows
  constructor
  · have : (dupCount t.rows : Rat) / (t.rowCount : Rat) ≤ 1 := by
      rw [div_le_one hrc]
      exact hdle
    linarith
  · have : 0 ≤ (dupCount t.rows : Rat) / (t.rowCount : Rat) := div_nonneg hd0 hrc.le
    linarith

theorem consCol_bounds (d : DType) (cells : List Cell) :
    0 ≤ consCol d cells ∧ consCol d cells ≤ 1 := by
  simp only [consCol]
  split_ifs <;> norm_num

theorem validCol_bounds (d : DType) (cells : List Cell) :
    0 ≤ validCol d cells ∧ validCol d cells ≤ 1 := by
  simp only [validCol]
  split_ifs <;> norm_num

theorem consistencyF_bounds (t : Table) (hc : t.colCount ≠ 0) :
    0 ≤ consistencyF t ∧ consistencyF t ≤ 1 := by
  unfold consistencyF
  have hcpos : (0 : Rat) < (t.colCount : Rat) := by
    exact_mod_cast Nat.pos_of_ne_zero hc
  have h0 : 0 ≤ ((List.range t.colCount).map
      fun j => consCol (colDType t j) (colCells t j)).sum := by
    apply list_sum_nonneg_rat
    intro x hx
    rcases List.mem_map.mp hx with ⟨j, _, rfl⟩
    exact (consCol_bounds _ _).1
  have h1 : ((List.range t.colCount).map
      fun j => consCol (colDType t j) (colCells t j)).sum ≤ (t.colCount : Rat) * 1 := by
    have := list_sum_le_rat ((List.range t.colCount).map
      fun j => consCol (colDType t j) (colCells t j)) 1 ?_
    · simpa using this
    · intro x hx
      rcases List.mem_map.mp hx with ⟨j, _, rfl⟩
      exact (consCol_bounds _ _).2
  constructor
  · exact div_nonneg h0 hcpos.le
  · rw [div_le_one hcpos]
    linarith

theorem validityF_bounds (t : Table) (hc : t.colCount ≠ 0) :
    0 ≤ validityF t ∧ validityF t ≤ 1 := by
  unfold validityF
  have hcpos : (0 : Rat) < (t.colCount : Rat) := by
    exact_mod_cast Nat.pos_of_ne_zero hc
  have h0 : 0 ≤ ((List.range t.colCount).map
      fun j => validCol (colDType t j) (colCells t j)).sum := by
    apply list_sum_nonneg_rat
    intro x hx
    rcases List.mem_map.mp hx with ⟨j, _, rfl⟩
    exact (validCol_bounds _ _).1
  have h1 : ((List.range t.colCount).map
      fun j => validCol (colDType t j) (colCells t j)).sum ≤ (t.colCount : Rat) * 1 := by
    have := list_sum_le_rat ((List.range t.colCount).map
      fun j => validCol (colDType t j) (colCells t j)) 1 ?_
    · simpa using this
    · intro x hx
      rcases List.mem_map.mp hx with ⟨j, _, rfl⟩
      exact (validCol_bounds _ _).2
  constructor
  · exact div_nonneg h0 hcpos.le
  · rw [div_le_one hcpos]
    linarith

theorem rawScore_bounds (t : Table) (hwf : t.WF) (hr : t.rowCount ≠ 0)
    (hc : t.colCount ≠ 0) : 0 ≤ rawScore t ∧ rawScore t ≤ 100 := by
  obtain ⟨c0, c1⟩ := completenessF_bounds t hwf hr hc
  obtain ⟨u0, u1⟩ := uniquenessF_bounds t hr
  obtain ⟨k0, k1⟩ := consistencyF_bounds t hc
  obtain ⟨v0, v1⟩ := validityF_bounds t hc
  unfold rawScore
  constructor <;> nlinarith

/-- C4: `calculate_quality_score` always lands in [0, 100]; a zero-row table
scores exactly 0; for a non-empty frame the score is 100 times the sum of
the four weighted factors, clamped to [0, 100] and rounded to one decimal —
and on well-formed non-empty tables the clamp is a no-op because the raw
weighted sum already lies in [0, 100]. -/
theorem quality_score_spec (t : Table) :
    (0 ≤ calculate_quality_score t ∧ calculate_quality_score t ≤ 100) ∧
    (t.rowCount = 0 → calculate_quality_score t = 0) ∧
    (t.rowCount ≠ 0 → t.colCount ≠ 0 →
      calculate_quality_score t = pyRound1 (max 0 (min 100 (rawScore t)))) ∧
    (t.WF → t.rowCount ≠ 0 → t.colCount ≠ 0 →
      calculate_quality_score t = pyRound1 (rawScore t) ∧
      0 ≤ rawScore t ∧ rawScore t ≤ 100) := by
  refine ⟨?_, ?_, ?_, ?_⟩
  · unfold calculate_quality_score
    split_ifs with h
    · norm_num
    · have hclamp0 : (0 : Rat) ≤ max 0 (min 100 (rawScore t)) := le_max_left 0 _
      have hclamp1 : max 0 (min 100 (rawScore t)) ≤ 100 :=
        max_le (by norm_num) (min_le_left _ _)
      exact ⟨pyRound1_nonneg _ hclamp0, pyRound1_le_100 _ hclamp1⟩
  · intro h
    unfold calculate_quality_score
    rw [if_pos (Or.inl h)]
  · intro hr hc
    unfold calculate_quality_score
    rw [if_neg (by tauto)]
  · intro hwf hr hc
    obtain ⟨r0, r1⟩ := rawScore_bounds t hwf hr hc
    have hcl : max 0 (min 100 (rawScore t)) = rawScore t := by
      rw [min_eq_right r1, max_eq_right r0]
    refine ⟨?_, r0, r1⟩
    unfold calculate_quality_score
    rw [if_neg (by tauto), hcl]

/-- C4 witness: the score contract applied to the concrete well-formed
two-by-two table `tblScore`. -/
theorem quality_score_spec_witness :
    calculate_quality_score tblScore = pyRound1 (rawScore tblScore) ∧
    0 ≤ rawScore tblScore ∧ rawScore tblScore ≤ 100 :=
  (quality_score_spec tblScore).2.2.2 (by decide) (by decide) (by decide)

/-- The binary64 threshold `len(df) * 0.7` where it deviates from the exact
rational: at ten rows the tie rounds to exactly 7, while at ninety rows the
product falls strictly below 63— so a 90-row column with 63 coercible cells
clears the program's strict comparison. -/
theorem pyTimes07_values :
    pyTimes07 10 = 7 ∧ pyTimes07 90 < 63 ∧ (63 : Rat) > pyTimes07 90 := by
  decide

/-- C2 counterexample: in `tblConv` the single text column has five
non-missing values of which four (80% ≥ 70%) coerce to numbers, and coercion
would change the column, yet `basic_type_conversion` leaves the table
untouched — because the source compares the coercible count (4) strictly
against `len(df) * 0.7 = 7`, the full row count times 0.7, not the
non-missing count. -/
theorem numeric_coercion_counterexample :
    colDType tblConv 0 = DType.object ∧
    (coerceCount (colCells tblConv 0) : Rat) ≥
      (0.7 : Rat) * (((colCells tblConv 0).countP fun c => !c.isMissing : Nat) : Rat) ∧
    (colCells tblConv 0).map toNumeric ≠ colCells tblConv 0 ∧
    basic_type_conversion tblConv = tblConv := by
  decide

/-- C2 amended: for every text (object) column, `basic_type_conversion`
replaces the column with its coerced values (non-convertible cells becoming
missing, dtype becoming numeric) if and only if the number of successfully
coercing cells strictly exceeds the binary64 product `len(df) * 0.7` of the
table's **total** row count (so missing cells count against the threshold)
with the double 0.7; other columns are left unchanged. -/
theorem numeric_coercion_threshold (t : Table) (j : Nat) :
    (colDType t j = DType.object →
      colCells (basic_type_conversion t) j =
        (if (coerceCount (colCells t j) : Rat) > pyTimes07 t.rowCount
         then (colCells t j).map toNumeric else colCells t j) ∧
      colDType (basic_type_conversion t) j =
        (if (coerceCount (colCells t j) : Rat) > pyTimes07 t.rowCount
         then DType.numeric else DType.object)) ∧
    (colDType t j ≠ DType.object →
      colCells (basic_type_conversion t) j = colCells t j ∧
      colDType (basic_type_conversion t) j = colDType t j) := by
  have hq : convertQ t j = true ↔
      (colDType t j = DType.object ∧
        (coerceCount (colCells t j) : Rat) > pyTimes07 t.rowCount) := by
    unfold convertQ
    exact decide_eq_true_iff
  constructor
  · intro hobj
    by_cases hc : (coerceCount (colCells t j) : Rat) > pyTimes07 t.rowCount
    · rw [colCells_conv, colDType_conv, if_pos (hq.mpr ⟨hobj, hc⟩),
        if_pos (hq.mpr ⟨hobj, hc⟩), if_pos hc, if_pos hc]
      exact ⟨rfl, rfl⟩
    · have hn : ¬(convertQ t j = true) := fun h => hc (hq.mp h).2
      rw [colCells_conv, colDType_conv, if_neg hn, if_neg hn, if_neg hc, if_neg hc]
      exact ⟨rfl, hobj⟩
  · intro hobj
    have hn : ¬(convertQ t j = true) := fun h => hobj (hq.mp h).1
    rw [colCells_conv, colDType_conv, if_neg hn, if_neg hn]
    exact ⟨rfl, rfl⟩

/-- C2 amended witness: the threshold characterization applied to the
concrete table `tblConv` and its only column. -/
theorem numeric_coercion_threshold_witness :
    colCells (basic_type_conversion tblConv) 0 =
      (if (coerceCount (colCells tblConv 0) : Rat) > pyTimes07 tblConv.rowCount
       then (colCells tblConv 0).map toNumeric else colCells tblConv 0) :=
  ((numeric_coercion_threshold tblConv 0).1 (by decide)).1

/-- C7 counterexample: on the four-row table `tblIdem` the composed
deterministic cleaning is not idempotent — the coercion step turns `"a"`
into a fully-missing row which only the second pass's empty-row removal
drops, so the second pass has fewer rows. -/
theorem det_cleaners_not_idempotent :
    detClean (detClean tblIdem) ≠ detClean tblIdem ∧
    (detClean tblIdem).rowCount = 4 ∧
    (detClean (detClean tblIdem)).rowCount = 3 := by
  decide

/-- C7 amended: each of the three deterministic cleaners is individually
idempotent (`basic_type_conversion` unconditionally, because converted
columns stop being object-typed), and the composed cleaning applied twice
equals the composed cleaning applied once **if and only if** its own output
contains no fully-missing row and no duplicate row — the two artefacts
numeric coercion can introduce, each of which makes the second pass
strictly shorter. -/
theorem det_cleaners_conditional_idem (t : Table) :
    remove_empty_rows (remove_empty_rows t) = remove_empty_rows t ∧
    remove_duplicates (remove_duplicates t) = remove_duplicates t ∧
    basic_type_conversion (basic_type_conversion t) = basic_type_conversion t ∧
    (detClean (detClean t) = detClean t ↔
      (∀ r ∈ (detClean t).rows, rowAllMissing r = false) ∧ (detClean t).rows.Nodup) := by
  refine ⟨?_, ?_, conv_idem t, ?_, ?_⟩
  · refine remove_empty_rows_eq_self _ ?_
    intro r hr
    simp only [remove_empty_rows] at hr
    simpa using (List.mem_filter.mp hr).2
  · exact remove_duplicates_eq_self _ (dropDupAux_nodup [] t.rows).1
  · intro h
    have hcount := congrArg Table.rowCount h
    have h1 : ∀ r ∈ (detClean t).rows, rowAllMissing r = false := by
      by_contra hno
      push_neg at hno
      obtain ⟨r, hr, hmiss⟩ := hno
      have hmiss' : rowAllMissing r = true := by
        cases hb : rowAllMissing r
        · exact absurd hb hmiss
        · rfl
      have hlt : ((detClean t).rows.filter fun r => !rowAllMissing r).length
          < (detClean t).rows.length := by
        rw [List.length_filter_lt_length_iff_exists]
        exact ⟨r, hr, by simp [hmiss']⟩
      have hle := dropDupAux_length_le []
        ((detClean t).rows.filter fun r => !rowAllMissing r)
      have heq : (detClean (detClean t)).rowCount
          = (dropDupAux [] ((detClean t).rows.filter
              fun r => !rowAllMissing r)).length := by
        show (basic_type_conversion (remove_duplicates
          (remove_empty_rows (detClean t)))).rowCount = _
        rw [conv_rowCount]
        rfl
      simp only [Table.rowCount] at hcount heq
      omega
    have h2 : (detClean t).rows.Nodup := by
      by_contra hnd
      have hrm : remove_empty_rows (detClean t) = detClean t :=
        remove_empty_rows_eq_self _ h1
      have hlt : (dropDupAux [] (detClean t).rows).length < (detClean t).rows.length :=
        dropDupAux_length_lt [] _ (Or.inl hnd)
      have heq : (detClean (detClean t)).rowCount
          = (dropDupAux [] (detClean t).rows).length := by
        show (basic_type_conversion (remove_duplicates
          (remove_empty_rows (detClean t)))).rowCount = _
        rw [hrm, conv_rowCount]
        rfl
      simp only [Table.rowCount] at hcount heq
      omega
    exact ⟨h1, h2⟩
  · rintro ⟨h1, h2⟩
    show basic_type_conversion (remove_duplicates (remove_empty_rows (detClean t))) = detClean t
    rw [remove_empty_rows_eq_self _ h1, remove_duplicates_eq_self _ h2]
    exact conv_idem _

/-- C7 amended witness: the idempotence criterion applied, in its sufficient
direction, to the concrete already-stable table `tblStable`. -/
theorem det_cleaners_conditional_idem_witness :
    detClean (detClean tblStable) = detClean tblStable :=
  (det_cleaners_conditional_idem tblStable).2.2.2.mpr ⟨by decide, by decide⟩

/-- C6 counterexample: for `A = ["1"]`, `B = ["2"]` the `[A, A, B]` table is
deduplicated to two rows with `rows_removed = 1`, but the cleaned rows are
the *coerced* `[[1], [2]]`, not `[A, B]` — the numeric-coercion step of the
same deterministic pass rewrites the surviving cells. -/
theorem duplicate_rows_counterexample :
    (clean_data none tblDup "" true).report.rows_removed = 1 ∧
    (clean_data none tblDup "" true).cleaned_data.rows = [[.num 1], [.num 2]] ∧
    (clean_data none tblDup "" true).cleaned_data.rows ≠ [[.text "1"], [.text "2"]] := by
  decide

/-- C6 amended: for every table with rows `[A, A, B]`, `A ≠ B`, neither row
fully missing, a basic run of `clean_data` reports `rows_removed = 1` and
returns the table with rows `[A, B]` *as further transformed by the
numeric-coercion step* (so equal to `[A, B]` whenever coercion leaves the
columns unchanged). -/
theorem duplicate_removal_first_occurrence (cols : List String) (dts : List DType)
    (A B : List Cell) (hAB : A ≠ B)
    (hA : rowAllMissing A = false) (hB : rowAllMissing B = false) (bo : Bool) :
    (clean_data none ⟨cols, dts, [A, A, B]⟩ "" bo).report.rows_removed = 1 ∧
    (clean_data none ⟨cols, dts, [A, A, B]⟩ "" bo).cleaned_data =
      basic_type_conversion ⟨cols, dts, [A, B]⟩ := by
  have hBA : B ≠ A := Ne.symm hAB
  have h1 : remove_empty_rows ⟨cols, dts, [A, A, B]⟩ = ⟨cols, dts, [A, A, B]⟩ := by
    refine remove_empty_rows_eq_self _ ?_
    intro r hr
    simp only [List.mem_cons, List.not_mem_nil, or_false] at hr
    rcases hr with rfl | rfl | rfl
    · exact hA
    · exact hA
    · exact hB
  have h2 : remove_duplicates ⟨cols, dts, [A, A, B]⟩ = ⟨cols, dts, [A, B]⟩ := by
    unfold remove_duplicates
    simp [dropDupAux, hBA]
  unfold clean_data
  simp only [h1, h2, conv_rowCount]
  constructor
  · simp [Table.rowCount, conv_rowCount]
  · trivial

/-- C3 counterexample: when the classification service answers with prose
(`"A Phone Number"`), the engine records the stripped lower-cased response
verbatim as the column label — a string outside the closed label set; no
default to `text` happens on a *successful* malformed response. -/
theorem classifier_label_counterexample :
    analyze_columns envBadLabel tblOneText = [(0, "c", "a phone number")] ∧
    "a phone number" ∉ closedLabels := by
  decide

/-- C3 amended: the classifier never raises (it is total, service exceptions
included) and every produced label is either the fallback `"text"` — chosen
exactly when the service call raised — or the stripped lower-cased service
response verbatim; membership in the closed label set is never enforced, so
it holds only when the service answers with one of the eight words. -/
theorem classifier_label_characterization (env : Env) (t : Table) (j : Nat)
    (name lbl : String) (h : (j, name, lbl) ∈ analyze_columns env t) :
    lbl = "text" ∨
      ∃ s, env.classify name (sample3 (colCells t j)) = .ok s ∧
        lbl = stripStr (lcStr s) := by
  unfold analyze_columns at h
  rw [List.mem_filterMap] at h
  obtain ⟨a, _, hf⟩ := h
  by_cases hd : colDType t a = DType.object
  · rw [if_pos hd] at hf
    by_cases hs : (sample3 (colCells t a)).isEmpty
    · rw [if_pos hs] at hf
      exact absurd hf (by simp)
    · rw [if_neg hs] at hf
      cases hcl : env.classify (t.colNames.getD a "") (sample3 (colCells t a)) with
      | error err =>
          rw [hcl] at hf
          simp only [Option.some.injEq, Prod.mk.injEq] at hf
          obtain ⟨rfl, rfl, rfl⟩ := hf
          exact Or.inl rfl
      | ok s =>
          rw [hcl] at hf
          simp only [Option.some.injEq, Prod.mk.injEq] at hf
          obtain ⟨rfl, rfl, rfl⟩ := hf
          exact Or.inr ⟨s, hcl, rfl⟩
  · rw [if_neg hd] at hf
    exact absurd hf (by simp)

/-- C3 amended witness: the label characterization applied to the concrete
classifier run that produced the out-of-set label `"a phone number"`. -/
theorem classifier_label_characterization_witness :
    ((0, "c", "a phone number") ∈ analyze_columns envBadLabel tblOneText) ∧
    ("a phone number" = "text" ∨
      ∃ s, envBadLabel.classify "c" (sample3 (colCells tblOneText 0)) = .ok s ∧
        "a phone number" = stripStr (lcStr s)) :=
  ⟨by decide,
    classifier_label_characterization envBadLabel tblOneText 0 "c" "a phone number"
      (by decide)⟩

/-- C1 counterexample: with a generated snippet `"import os"` the safety gate
rejects execution and the table passes through unchanged with no error — but
`clean_data` still appends the `Applied custom instructions` report line,
because line 65 of the source appends unconditionally after the call and the
rejection is invisible to it.  This refutes the claim's "no report line
added" part. -/
theorem instruction_gate_counterexample :
    containsDangerous "import os" = true ∧
    (clean_data (some envGate) tblGate "drop things" false).cleaned_data = tblGate ∧
    (clean_data (some envGate) tblGate "drop things" false).report.llm_error = none ∧
    "Applied custom instructions: drop things" ∈
      (clean_data (some envGate) tblGate "drop things" false).report.operations_performed := by
  decide

/-- C1 amended: a deny-listed snippet is rejected — `apply_user_instructions`
returns its table argument unchanged and surfaces no error — but whenever
the dispatch stage completed and the instruction string is non-empty the
orchestrator still appends the `Applied custom instructions` line to
`operations_performed`; it cannot observe the rejection. -/
theorem instruction_gate_amended (env : Env) (t t4 : Table) (instr code : String)
    (hin : instr ≠ "")
    (hgen : env.genCode t4.rowCount t4.colNames instr = .ok code)
    (hdan : containsDangerous code = true)
    (hdisp : (dispatchLoop (detClean t) []
      (analyze_columns env (detClean t))).2.2 = none) :
    apply_user_instructions env t4 instr = t4 ∧
    ("Applied custom instructions: " ++ instr) ∈
      (clean_data (some env) t instr false).report.operations_performed := by
  constructor
  · unfold apply_user_instructions
    rw [hgen]
    simp [hdan]
  · unfold detClean at hdisp
    rcases hd : dispatchLoop (basic_type_conversion (remove_duplicates (remove_empty_rows t)))
        [] (analyze_columns env (basic_type_conversion (remove_duplicates (remove_empty_rows t))))
      with ⟨t5, ops5, err5⟩
    rw [hd] at hdisp
    simp only at hdisp
    subst hdisp
    unfold clean_data llm_block
    simp [hd, hin, List.mem_append]

/-- C1 amended witness: the gate-plus-report-line behaviour at the concrete
run with snippet `"import os"`. -/
theorem instruction_gate_amended_witness :
    apply_user_instructions envGate tblGate "drop things" = tblGate ∧
    ("Applied custom instructions: " ++ "drop things") ∈
      (clean_data (some envGate) tblGate "drop things" false).report.operations_performed :=
  instruction_gate_amended envGate tblGate tblGate "drop things" "import os"
    (by decide) rfl (by decide) (by decide)

/-- C5: whenever the LLM-powered block of `clean_data` ends with a captured
exception, the pipeline does not abort: the error message is recorded under
`llm_error`, the table state reached so far (the deterministic output,
possibly extended by the cleaners dispatched before the failure) is
returned, and `final_rows`, `final_columns`, `data_quality_score_after` and
`rows_removed` are all computed and present. -/
theorem llm_failure_preserves_results (env : Env) (t : Table) (instr : String)
    (tf : Table) (ops : List String) (ana : Option (List (String × String))) (e : String)
    (h : llm_block env (basic_type_conversion (remove_duplicates (remove_empty_rows t))) instr
      = ⟨tf, ops, ana, some e⟩) :
    (clean_data (some env) t instr false).report.llm_error = some e ∧
    (clean_data (some env) t instr false).cleaned_data = tf ∧
    (clean_data (some env) t instr false).report.final_rows = tf.rowCount ∧
    (clean_data (some env) t instr false).report.final_columns = tf.colCount ∧
    (clean_data (some env) t instr false).report.data_quality_score_after
      = calculate_quality_score tf ∧
    (clean_data (some env) t instr false).report.rows_removed
      = (t.rowCount : Int) - (tf.rowCount : Int) ∧
    (clean_data (some env) t instr false).report.operations_performed
      = ["Removed empty rows", "Removed duplicates", "Basic type conversion"] ++ ops := by
  unfold clean_data
  simp only [h]
  simp

/-- C5 witness: the failure-preservation contract at the concrete run where
the service classifies a numeric object column as `email` and the dispatched
pandas `.str` accessor raises inside the `try` block. -/
theorem llm_failure_preserves_results_witness :
    (clean_data (some envCrash) tblCrash "" false).report.llm_error =
      some "Can only use .str accessor with string values!" ∧
    (clean_data (some envCrash) tblCrash "" false).report.operations_performed =
      ["Removed empty rows", "Removed duplicates", "Basic type conversion"] :=
  ⟨(llm_failure_preserves_results envCrash tblCrash "" (detClean tblCrash) []
      (some [("x", "email"), ("y", "text")]) "Can only use .str accessor with string values!"
      (by decide)).1,
   (llm_failure_preserves_results envCrash tblCrash "" (detClean tblCrash) []
      (some [("x", "email"), ("y", "text")]) "Can only use .str accessor with string values!"
      (by decide)).2.2.2.2.2.2⟩

/-- C6 amended witness: the `[A, A, B]` law applied to the concrete rows
`A = ["pear"]`, `B = ["plum"]`. -/
theorem duplicate_removal_first_occurrence_witness :
    (clean_data none ⟨["x"], [.object], [[.text "pear"], [.text "pear"], [.text "plum"]]⟩
        "" true).report.rows_removed = 1 ∧
    (clean_data none ⟨["x"], [.object], [[.text "pear"], [.text "pear"], [.text "plum"]]⟩
        "" true).cleaned_data =
      basic_type_conversion ⟨["x"], [.object], [[.text "pear"], [.text "plum"]]⟩ :=
  duplicate_removal_first_occurrence ["x"] [.object] [.text "pear"] [.text "plum"]
    (by decide) (by decide) (by decide) true

end CleanMyCSV
